import Mathlib

/-!
Shallow embedding of the `metricator` library (`src/src/lib.rs`):
two accumulators, `RateMetric` and `AggregateMetric<T>`, plus the
`MinMaxAvg<T>` report value.

Modelling conventions:
* Rust `f32` values are modelled as exact rationals (`ℚ`); every `f32`
  operation the source performs (division, integer-to-float casts) is
  performed on the rational model in the same order, so theorems about
  which expression the code computes carry over.
* `Millis` (from the external `monotonic_time_rs` crate) is a
  millisecond timestamp, modelled as `ℕ`; `MillisDuration` is a
  millisecond duration, modelled as `ℚ` so that a configured interval of
  fractional seconds needs no rounding choice.  Both are out of scope of
  `src/` and are modelled from the spec where needed.
* The generic element type `T` of `AggregateMetric<T>` (bounded
  `Add + PartialOrd + Default + Bounded + ToPrimitive`) is modelled by a
  record `NumElem α` packaging exactly the operations the source uses.
* A Rust panic (`expect`) is modelled by the `panicked` constructor of
  `RustResult`, distinct from a value-returning `Result::Err`.
-/

namespace Metricator

/-- The operations `AggregateMetric<T>` requires of its element type `T`:
addition (`Add`), the strict comparisons of `PartialOrd` as used by the
source (`value > max_ack`, `value < min_ack`), `Default::default()`
(the zero value per spec §3), `Bounded::min_value`/`max_value`, and
`ToPrimitive::to_f32`, which may fail (`None`) when the value cannot be
represented as an `f32`. -/
structure NumElem (α : Type) where
  add : α → α → α
  ltb : α → α → Bool
  gtb : α → α → Bool
  default : α
  min_value : α
  max_value : α
  to_f32 : α → Option ℚ

/-- `MinMaxAvg<T>` (lib.rs:14-20): the report value with `min`, `avg`
(`f32`, modelled as `ℚ`), `max` and a display `unit`. -/
structure MinMaxAvg (α : Type) where
  min : α
  avg : ℚ
  max : α
  unit : String
  deriving DecidableEq

/-- `MinMaxAvg::new` (lib.rs:23-30): empty unit. -/
def MinMaxAvg.new (min : α) (avg : ℚ) (max : α) : MinMaxAvg α :=
  { min := min, avg := avg, max := max, unit := "" }

/-- `MinMaxAvg::with_unit` (lib.rs:32-35). -/
def MinMaxAvg.with_unit (r : MinMaxAvg α) (unit : String) : MinMaxAvg α :=
  { r with unit := unit }

/-- Outcome of a Rust computation that can panic: `ok` is normal return,
`panicked` is an unwind (e.g. `Option::expect` on `None`) carrying the
panic message.  Distinct from returning a `Result::Err` value. -/
inductive RustResult (α : Type) where
  | ok : α → RustResult α
  | panicked : String → RustResult α
  deriving DecidableEq

/-- Modelled from the spec: `MillisDuration::from_secs` lives in the
external `monotonic_time_rs` crate (spec §1 puts the clock types out of
scope).  Per spec §4.1/§7 it fails exactly when the seconds value is not
strictly positive, and otherwise denotes that many seconds, i.e.
`1000 * s` milliseconds. -/
def MillisDuration.from_secs (s : ℚ) : Option ℚ :=
  if 0 < s then some (1000 * s) else none

/-- `RateMetric` (lib.rs:50-55): `count : u32` (modelled `ℕ`),
`last_calculated_at : Millis` (ms timestamp, modelled `ℕ`),
`average : f32` (modelled `ℚ`), `measurement_interval : MillisDuration`
(ms, modelled `ℚ`). -/
structure RateMetric where
  count : ℕ
  last_calculated_at : ℕ
  average : ℚ
  measurement_interval : ℚ
  deriving DecidableEq

/-- `RateMetric::new` (lib.rs:67-74): zero count, 500 ms interval. -/
def RateMetric.new (time : ℕ) : RateMetric :=
  { count := 0, last_calculated_at := time, measurement_interval := 500,
    average := 0 }

/-- `RateMetric::with_interval` (lib.rs:76-84): converts the `f32`
seconds via `MillisDuration::from_secs(..).expect("measurement interval
should be positive")`; the `expect` is an unwind (panic) when the
conversion fails, not a returned error value. -/
def RateMetric.with_interval (time : ℕ) (measurement_interval : ℚ) :
    RustResult RateMetric :=
  match MillisDuration.from_secs measurement_interval with
  | some d =>
      .ok { count := 0, last_calculated_at := time,
            measurement_interval := d, average := 0 }
  | none => .panicked "measurement interval should be positive"

/-- `RateMetric::increment` (lib.rs:89-91). -/
def RateMetric.increment (m : RateMetric) : RateMetric :=
  { m with count := m.count + 1 }

/-- `RateMetric::add` (lib.rs:98-100). -/
def RateMetric.add (m : RateMetric) (count : ℕ) : RateMetric :=
  { m with count := m.count + count }

/-- `RateMetric::update` (lib.rs:110-122): `elapsed_time = time -
last_calculated_at` (a `MillisDuration`, here truncated `ℕ`
subtraction of the two ms timestamps); early return when
`elapsed_time < measurement_interval`; otherwise
`rate = count as f32 / elapsed_time.as_secs()` where `as_secs` is the
duration in fractional seconds (ms / 1000), then reset `count := 0`,
`last_calculated_at := time`, `average := rate`. -/
def RateMetric.update (m : RateMetric) (time : ℕ) : RateMetric :=
  let elapsed_ms : ℕ := time - m.last_calculated_at
  if (elapsed_ms : ℚ) < m.measurement_interval then m
  else
    { m with count := 0, last_calculated_at := time,
             average := (m.count : ℚ) / ((elapsed_ms : ℚ) / 1000) }

/-- `RateMetric::rate` (lib.rs:124-126). -/
def RateMetric.rate (m : RateMetric) : ℚ :=
  m.average

/-- `AggregateMetric<T>` (lib.rs:131-142): `count` and `threshold` are
`u8` (modelled `ℕ`; the overflow question is claim C8), `avg` is `f32`
(modelled `ℚ`). -/
structure AggregateMetric (α : Type) where
  sum : α
  count : ℕ
  max : α
  min : α
  threshold : ℕ
  max_ack : α
  min_ack : α
  avg : ℚ
  avg_is_set : Bool
  unit : String

/-- `AggregateMetric::new` (lib.rs:158-175): `Err` with the literal
message iff the threshold is zero; otherwise all counters zero
(`T::default()`), `max_ack` seeded to `T::min_value()`, `min_ack` to
`T::max_value()`, `avg_is_set := false`, empty unit. -/
def AggregateMetric.new (C : NumElem α) (threshold : ℕ) :
    Except String (AggregateMetric α) :=
  if threshold = 0 then
    .error "threshold can not be zero"
  else
    .ok { sum := C.default, count := 0, max := C.default, min := C.default,
          threshold := threshold, max_ack := C.min_value,
          min_ack := C.max_value, avg := 0, avg_is_set := false, unit := "" }

/-- `AggregateMetric::with_unit` (lib.rs:177-180). -/
def AggregateMetric.with_unit (m : AggregateMetric α) (unit : String) :
    AggregateMetric α :=
  { m with unit := unit }

/-- `AggregateMetric::average` (lib.rs:183-189). -/
def AggregateMetric.average (m : AggregateMetric α) : Option ℚ :=
  if m.avg_is_set then some m.avg else none

/-- `AggregateMetric::add` (lib.rs:192-219), with the source's
sequential field mutations flattened: first `sum += value; count += 1`
and the strict-comparison updates of `max_ack`/`min_ack`; then, when
`count >= threshold`, the batch close: `avg := (sum.to_f32()
.unwrap_or(0.0)) / (count as f32)`, publish `min := min_ack`,
`max := max_ack`, reseed the acks to the type bounds, reset `count`
and `sum`, and set `avg_is_set`. -/
def AggregateMetric.add (C : NumElem α) (m : AggregateMetric α) (value : α) :
    AggregateMetric α :=
  let sum' := C.add m.sum value
  let count' := m.count + 1
  let max_ack' := if C.gtb value m.max_ack then value else m.max_ack
  let min_ack' := if C.ltb value m.min_ack then value else m.min_ack
  if m.threshold ≤ count' then
    { sum := C.default, count := 0, max := max_ack', min := min_ack',
      threshold := m.threshold, max_ack := C.min_value,
      min_ack := C.max_value,
      avg := ((C.to_f32 sum').getD 0) / (count' : ℚ),
      avg_is_set := true, unit := m.unit }
  else
    { m with sum := sum', count := count', max_ack := max_ack',
             min_ack := min_ack' }

/-- `AggregateMetric::values` (lib.rs:222-228). -/
def AggregateMetric.values (m : AggregateMetric α) : Option (MinMaxAvg α) :=
  if m.avg_is_set then
    some ((MinMaxAvg.new m.min m.avg m.max).with_unit m.unit)
  else
    none

/-- A sequence of `add` calls, left to right. -/
def addAll (C : NumElem α) (m : AggregateMetric α) (vs : List α) :
    AggregateMetric α :=
  vs.foldl (AggregateMetric.add C) m

/-- Two's-complement wrap of an integer into the `i32` range: the
release-mode semantics of Rust `i32` addition.  (Debug builds panic on
overflow instead; wrapping is the deterministic model used here.) -/
def wrap32 (n : ℤ) : ℤ :=
  (n + 2 ^ 31) % 2 ^ 32 - 2 ^ 31

/-- The element type `i32` as a `NumElem`: wrapping two's-complement
addition (Rust `i32` overflow semantics in release mode), the `i32`
bounds, strict order comparisons, and the total `to_f32` of
`num_traits` for machine integers (always `Some`, modelled as the
exact rational value). -/
def i32Elem : NumElem ℤ where
  add := fun a b => wrap32 (a + b)
  ltb := fun a b => decide (a < b)
  gtb := fun a b => decide (b < a)
  default := 0
  min_value := -(2 ^ 31)
  max_value := 2 ^ 31 - 1
  to_f32 := fun n => some (n : ℚ)

/-- The largest finite `f32` magnitude, `(2^24 - 1) * 2^104`, as an
exact rational. -/
def f32MaxAbs : ℚ := (2 ^ 24 - 1) * 2 ^ 104

/-- The largest finite `f64` magnitude, `(2^53 - 1) * 2^971`, as an
exact rational. -/
def f64MaxAbs : ℚ := (2 ^ 53 - 1) * 2 ^ 971

/-- The element type `f64` as a `NumElem` (values modelled as exact
rationals): `num_traits`' `ToPrimitive::to_f32` for `f64` returns
`None` when the value lies outside the finite `f32` range. -/
def f64Elem : NumElem ℚ where
  add := fun a b => a + b
  ltb := fun a b => decide (a < b)
  gtb := fun a b => decide (b < a)
  default := 0
  min_value := -f64MaxAbs
  max_value := f64MaxAbs
  to_f32 := fun q => if |q| ≤ f32MaxAbs then some q else none

/-! ### Helper lemmas -/

theorem AggregateMetric.add_of_lt (C : NumElem α) (m : AggregateMetric α)
    (v : α) (h : m.count + 1 < m.threshold) :
    AggregateMetric.add C m v =
      { m with sum := C.add m.sum v, count := m.count + 1,
               max_ack := if C.gtb v m.max_ack then v else m.max_ack,
               min_ack := if C.ltb v m.min_ack then v else m.min_ack } := by
  simp only [AggregateMetric.add]
  rw [if_neg (by omega)]

theorem AggregateMetric.add_of_close (C : NumElem α) (m : AggregateMetric α)
    (v : α) (h : m.threshold ≤ m.count + 1) :
    AggregateMetric.add C m v =
      { sum := C.default, count := 0,
        max := if C.gtb v m.max_ack then v else m.max_ack,
        min := if C.ltb v m.min_ack then v else m.min_ack,
        threshold := m.threshold, max_ack := C.min_value,
        min_ack := C.max_value,
        avg := ((C.to_f32 (C.add m.sum v)).getD 0) / ((m.count + 1 : ℕ) : ℚ),
        avg_is_set := true, unit := m.unit } := by
  simp only [AggregateMetric.add]
  rw [if_pos h]

theorem addAll_no_close (C : NumElem α) (vs : List α) :
    ∀ m : AggregateMetric α, m.count + vs.length < m.threshold →
    addAll C m vs =
      { m with
        sum := vs.foldl C.add m.sum,
        count := m.count + vs.length,
        max_ack := vs.foldl (fun a v => if C.gtb v a then v else a) m.max_ack,
        min_ack :=
          vs.foldl (fun a v => if C.ltb v a then v else a) m.min_ack } := by
  induction vs with
  | nil => intro m _; rfl
  | cons v t ih =>
      intro m h
      simp only [List.length_cons] at h
      show addAll C (AggregateMetric.add C m v) t = _
      rw [AggregateMetric.add_of_lt C m v (by omega)]
      rw [ih _ (by show m.count + 1 + t.length < m.threshold; omega)]
      simp only [List.foldl_cons, List.length_cons]
      have hc : m.count + (t.length + 1) = m.count + 1 + t.length := by omega
      rw [hc]

theorem addAll_close (C : NumElem α) (vs : List α) :
    ∀ m : AggregateMetric α, vs ≠ [] → m.count + vs.length = m.threshold →
    addAll C m vs =
      { sum := C.default, count := 0,
        max := vs.foldl (fun a v => if C.gtb v a then v else a) m.max_ack,
        min := vs.foldl (fun a v => if C.ltb v a then v else a) m.min_ack,
        threshold := m.threshold, max_ack := C.min_value,
        min_ack := C.max_value,
        avg := ((C.to_f32 (vs.foldl C.add m.sum)).getD 0) / (m.threshold : ℚ),
        avg_is_set := true, unit := m.unit } := by
  induction vs with
  | nil => intro m hne _; exact absurd rfl hne
  | cons v t ih =>
      intro m _ hlen
      simp only [List.length_cons] at hlen
      cases t with
      | nil =>
          simp only [List.length_nil] at hlen
          show AggregateMetric.add C m v = _
          rw [AggregateMetric.add_of_close C m v (by omega)]
          simp only [List.foldl_cons, List.foldl_nil]
          have hc : m.count + 1 = m.threshold := by omega
          rw [hc]
      | cons w u =>
          simp only [List.length_cons] at hlen
          show addAll C (AggregateMetric.add C m v) (w :: u) = _
          rw [AggregateMetric.add_of_lt C m v (by omega)]
          rw [ih _ (List.cons_ne_nil w u)
            (by show m.count + 1 + (u.length + 1) = m.threshold; omega)]
          simp only [List.foldl_cons]

theorem avg_is_set_addAll (C : NumElem α) (vs : List α) :
    ∀ m : AggregateMetric α, m.avg_is_set = true →
      (addAll C m vs).avg_is_set = true := by
  induction vs with
  | nil => intro m h; exact h
  | cons v t ih =>
      intro m h
      show (addAll C (AggregateMetric.add C m v) t).avg_is_set = true
      apply ih
      simp only [AggregateMetric.add]
      split
      · rfl
      · exact h

theorem add_with_unit (C : NumElem α) (m : AggregateMetric α) (u : String)
    (v : α) :
    AggregateMetric.add C (m.with_unit u) v =
      (AggregateMetric.add C m v).with_unit u := by
  by_cases h : m.threshold ≤ m.count + 1
  · rw [AggregateMetric.add_of_close C m v h,
      AggregateMetric.add_of_close C (m.with_unit u) v h]
    rfl
  · rw [AggregateMetric.add_of_lt C m v (by omega),
      AggregateMetric.add_of_lt C (m.with_unit u) v
        (by show m.count + 1 < m.threshold; omega)]
    rfl

theorem addAll_with_unit (C : NumElem α) (vs : List α) :
    ∀ (m : AggregateMetric α) (u : String),
      addAll C (m.with_unit u) vs = (addAll C m vs).with_unit u := by
  induction vs with
  | nil => intro m u; rfl
  | cons v t ih =>
      intro m u
      show addAll C (AggregateMetric.add C (m.with_unit u) v) t = _
      rw [add_with_unit C m u v, ih]
      rfl

theorem AggregateMetric.new_ok (C : NumElem α) (k : ℕ) (h : k ≠ 0) :
    AggregateMetric.new C k =
      .ok { sum := C.default, count := 0, max := C.default,
            min := C.default, threshold := k, max_ack := C.min_value,
            min_ack := C.max_value, avg := 0, avg_is_set := false,
            unit := "" } := by
  unfold AggregateMetric.new
  rw [if_neg h]

theorem foldl_min_le_start (vs : List ℤ) : ∀ a : ℤ, vs.foldl min a ≤ a := by
  induction vs with
  | nil => intro a; exact le_refl a
  | cons v t ih =>
      intro a
      exact le_trans (ih (min a v)) (min_le_left a v)

theorem foldl_min_le_mem (vs : List ℤ) :
    ∀ a w : ℤ, w ∈ vs → vs.foldl min a ≤ w := by
  induction vs with
  | nil => intro a w hw; exact absurd hw (List.not_mem_nil w)
  | cons v t ih =>
      intro a w hw
      rcases List.mem_cons.mp hw with h | h
      · subst h
        exact le_trans (foldl_min_le_start t (min a w)) (min_le_right a w)
      · exact ih (min a v) w h

theorem foldl_min_mem_or_start (vs : List ℤ) :
    ∀ a : ℤ, vs.foldl min a ∈ vs ∨ vs.foldl min a = a := by
  induction vs with
  | nil => intro a; exact Or.inr rfl
  | cons v t ih =>
      intro a
      rcases ih (min a v) with h | h
      · exact Or.inl (List.mem_cons_of_mem v h)
      · rcases min_choice a v with hm | hm
        · exact Or.inr ((List.foldl_cons ..).trans (h.trans hm))
        · refine Or.inl ?_
          rw [List.foldl_cons, h, hm]
          exact List.mem_cons_self v t

theorem foldl_max_ge_start (vs : List ℤ) : ∀ a : ℤ, a ≤ vs.foldl max a := by
  induction vs with
  | nil => intro a; exact le_refl a
  | cons v t ih =>
      intro a
      exact le_trans (le_max_left a v) (ih (max a v))

theorem foldl_max_ge_mem (vs : List ℤ) :
    ∀ a w : ℤ, w ∈ vs → w ≤ vs.foldl max a := by
  induction vs with
  | nil => intro a w hw; exact absurd hw (List.not_mem_nil w)
  | cons v t ih =>
      intro a w hw
      rcases List.mem_cons.mp hw with h | h
      · subst h
        exact le_trans (le_max_right a w) (foldl_max_ge_start t (max a w))
      · exact ih (max a v) w h

theorem foldl_max_mem_or_start (vs : List ℤ) :
    ∀ a : ℤ, vs.foldl max a ∈ vs ∨ vs.foldl max a = a := by
  induction vs with
  | nil => intro a; exact Or.inr rfl
  | cons v t ih =>
      intro a
      rcases ih (max a v) with h | h
      · exact Or.inl (List.mem_cons_of_mem v h)
      · rcases max_choice a v with hm | hm
        · exact Or.inr ((List.foldl_cons ..).trans (h.trans hm))
        · refine Or.inl ?_
          rw [List.foldl_cons, h, hm]
          exact List.mem_cons_self v t

theorem i32_fold_min (vs : List ℤ) (a : ℤ) :
    vs.foldl (fun acc v => if i32Elem.ltb v acc then v else acc) a
      = vs.foldl min a := by
  have hf : (fun (acc v : ℤ) => if i32Elem.ltb v acc then v else acc)
      = fun acc v => min acc v := by
    funext acc v
    show (if i32Elem.ltb v acc then v else acc) = min acc v
    simp only [i32Elem, decide_eq_true_eq]
    split
    · next h => exact (min_eq_right h.le).symm
    · next h => exact (min_eq_left (not_lt.mp h)).symm
  rw [hf]

theorem i32_fold_max (vs : List ℤ) (a : ℤ) :
    vs.foldl (fun acc v => if i32Elem.gtb v acc then v else acc) a
      = vs.foldl max a := by
  have hf : (fun (acc v : ℤ) => if i32Elem.gtb v acc then v else acc)
      = fun acc v => max acc v := by
    funext acc v
    show (if i32Elem.gtb v acc then v else acc) = max acc v
    simp only [i32Elem, decide_eq_true_eq]
    split
    · next h => exact (max_eq_right h.le).symm
    · next h => exact (max_eq_left (not_lt.mp h)).symm
  rw [hf]

theorem wrap32_eq_self (n : ℤ) (h1 : -(2 ^ 31) ≤ n) (h2 : n ≤ 2 ^ 31 - 1) :
    wrap32 n = n := by
  unfold wrap32
  rw [Int.emod_eq_of_lt (by omega) (by omega)]
  omega

theorem foldl_wrap_add (vs : List ℤ) :
    ∀ a : ℤ,
      (∀ m, m ≤ vs.length →
        -(2 ^ 31) ≤ a + (vs.take m).sum
        ∧ a + (vs.take m).sum ≤ 2 ^ 31 - 1) →
      vs.foldl i32Elem.add a = a + vs.sum := by
  induction vs with
  | nil => intro a _; simp
  | cons v t ih =>
      intro a h
      have h1 := h 1 (by simp)
      simp only [List.take_succ_cons, List.take_zero, List.sum_cons,
        List.sum_nil, add_zero] at h1
      show t.foldl i32Elem.add (i32Elem.add a v) = _
      have hw : i32Elem.add a v = a + v :=
        wrap32_eq_self (a + v) h1.1 h1.2
      rw [hw, ih (a + v) ?_]
      · simp only [List.sum_cons]
        ring
      · intro m hm
        have h2 := h (m + 1) (by simp only [List.length_cons]; omega)
        simp only [List.take_succ_cons, List.sum_cons] at h2
        constructor <;> linarith [h2.1, h2.2]

theorem RateMetric.update_lt (m : RateMetric) (time : ℕ)
    (h : ((time - m.last_calculated_at : ℕ) : ℚ) < m.measurement_interval) :
    m.update time = m := by
  unfold RateMetric.update
  rw [if_pos h]

theorem RateMetric.update_ge (m : RateMetric) (time : ℕ)
    (h : m.measurement_interval ≤ ((time - m.last_calculated_at : ℕ) : ℚ)) :
    m.update time =
      { count := 0, last_calculated_at := time,
        average := (m.count : ℚ) /
          (((time - m.last_calculated_at : ℕ) : ℚ) / 1000),
        measurement_interval := m.measurement_interval } := by
  unfold RateMetric.update
  rw [if_neg (not_lt.mpr h)]

/-! ### Claims about `RateMetric` -/

/-- C3: a call `update(now)` whose elapsed time `e = now - window_start`
satisfies `e ≥ I` sets `rate()` to exactly `count / e` (with `e` taken
as fractional seconds), resets `count` to 0, and sets the window start
to `now` (not to `window_start + interval`). -/
theorem C3_update_closes_window (m : RateMetric) (now : ℕ)
    (h : m.measurement_interval ≤ ((now - m.last_calculated_at : ℕ) : ℚ)) :
    m.update now =
      { count := 0, last_calculated_at := now,
        average := (m.count : ℚ) /
          (((now - m.last_calculated_at : ℕ) : ℚ) / 1000),
        measurement_interval := m.measurement_interval }
    ∧ (m.update now).rate =
        (m.count : ℚ) / (((now - m.last_calculated_at : ℕ) : ℚ) / 1000) := by
  refine ⟨RateMetric.update_ge m now h, ?_⟩
  rw [RateMetric.update_ge m now h]
  rfl

/-- Witness for C3 at the concrete run of the repository's `rate` test:
10 events over 10 000 ms give rate 1. -/
theorem C3_update_closes_window_witness :
    RateMetric.update ⟨10, 0, 0, 500⟩ 10000 = ⟨0, 10000, 1, 500⟩ := by
  have h := C3_update_closes_window ⟨10, 0, 0, 500⟩ 10000 (by norm_num)
  rw [h.1]
  norm_num

/-- C4: `rate()` is stable between window closes: `increment` and `add`
never change `rate()`; `update(now)` with elapsed time below the
interval returns with no side effect at all; and calling `update` twice
with the same `now` leaves the state of the first call unchanged — when
the first call closed the window the second observes elapsed = 0 and
returns early (interval is positive), so no division by zero occurs. -/
theorem C4_rate_stable_between_closes (m : RateMetric) (n : ℕ) (now : ℕ)
    (hI : 0 < m.measurement_interval) :
    m.increment.rate = m.rate
    ∧ (m.add n).rate = m.rate
    ∧ (((now - m.last_calculated_at : ℕ) : ℚ) < m.measurement_interval →
        m.update now = m)
    ∧ (m.update now).update now = m.update now := by
  refine ⟨rfl, rfl, fun hlt => RateMetric.update_lt m now hlt, ?_⟩
  by_cases hc :
      ((now - m.last_calculated_at : ℕ) : ℚ) < m.measurement_interval
  · rw [RateMetric.update_lt m now hc]
    exact RateMetric.update_lt m now hc
  · rw [RateMetric.update_ge m now (not_lt.mp hc)]
    exact RateMetric.update_lt _ _ (by simpa using hI)

/-- Witness for C4: concrete meter with interval 500 ms; a second
`update` at the same instant changes nothing. -/
theorem C4_rate_stable_between_closes_witness :
    (RateMetric.increment ⟨10, 0, 2, 500⟩).rate = 2
    ∧ (RateMetric.update (RateMetric.update ⟨10, 0, 2, 500⟩ 1000) 1000
        = RateMetric.update ⟨10, 0, 2, 500⟩ 1000) := by
  have h := C4_rate_stable_between_closes ⟨10, 0, 2, 500⟩ 5 1000 (by norm_num)
  exact ⟨h.1, h.2.2.2⟩

/-- C6 counterexample: `RateMeter::with_interval(0, 0)` with the
non-positive interval 0 does not return an error value — it panics
(unwinds) in the `expect` on `MillisDuration::from_secs`, with the
message "measurement interval should be positive".  The claim's
"value-returning error (not an unwind/panic)" is therefore false at
this input. -/
theorem C6_with_interval_counterexample :
    RateMetric.with_interval 0 0 =
      RustResult.panicked "measurement interval should be positive" := by
  rfl

/-- C6 amended: `RateMeter::with_interval(now, s)` with non-positive
`s` fails at construction time by panicking (an unwind raised by
`expect`), not with a value-returning error; for positive `s` it
succeeds with `count = 0`, rate 0, window start `now`, and interval
`s` seconds (1000·s ms). -/
theorem C6_with_interval_nonpositive_panics (t : ℕ) (s : ℚ) :
    (s ≤ 0 →
      RateMetric.with_interval t s =
        RustResult.panicked "measurement interval should be positive")
    ∧ (0 < s →
      RateMetric.with_interval t s =
        RustResult.ok
          { count := 0, last_calculated_at := t, average := 0,
            measurement_interval := 1000 * s }) := by
  constructor
  · intro hs
    unfold RateMetric.with_interval MillisDuration.from_secs
    rw [if_neg (not_lt.mpr hs)]
  · intro hs
    unfold RateMetric.with_interval MillisDuration.from_secs
    rw [if_pos hs]

/-- Witness for the amended C6: a 2-second interval constructs the
expected meter. -/
theorem C6_with_interval_nonpositive_panics_witness :
    RateMetric.with_interval 5 2 = RustResult.ok ⟨0, 5, 0, 2000⟩ := by
  have h := (C6_with_interval_nonpositive_panics 5 2).2 (by norm_num)
  rw [h]
  norm_num

/-! ### Claims about `AggregateMetric` construction -/

/-- C5: `AggregateMetric::new(threshold)` returns `Err` with exactly
the message `"threshold can not be zero"` iff `threshold = 0`; for
positive thresholds it returns `Ok` with zero counters, `min_ack`
seeded to the type's maximum value (the pending minimum), `max_ack`
seeded to the type's minimum value (the pending maximum),
`avg_is_set = false`, and an empty unit. -/
theorem C5_new_validates_threshold (C : NumElem α) (k : ℕ) :
    (AggregateMetric.new C k = .error "threshold can not be zero" ↔ k = 0)
    ∧ (0 < k →
        AggregateMetric.new C k =
          .ok { sum := C.default, count := 0, max := C.default,
                min := C.default, threshold := k, max_ack := C.min_value,
                min_ack := C.max_value, avg := 0, avg_is_set := false,
                unit := "" }) := by
  constructor
  · constructor
    · intro h
      by_contra hk
      unfold AggregateMetric.new at h
      rw [if_neg hk] at h
      exact Except.noConfusion h
    · intro hk
      subst hk
      rfl
  · intro hk
    unfold AggregateMetric.new
    rw [if_neg (Nat.pos_iff_ne_zero.mp hk)]

/-- Witness for C5 at `i32` and threshold 3. -/
theorem C5_new_validates_threshold_witness :
    AggregateMetric.new i32Elem 3 =
      .ok { sum := 0, count := 0, max := 0, min := 0, threshold := 3,
            max_ack := -(2 ^ 31), min_ack := 2 ^ 31 - 1, avg := 0,
            avg_is_set := false, unit := "" } :=
  (C5_new_validates_threshold i32Elem 3).2 (by norm_num)

/-! ### Claims about `AggregateMetric` behaviour -/

/-- C2: immediately after a batch close (the batch counter is 0),
any sequence of fewer than `threshold` further `add` calls leaves the
results of `values()` and `average()` unchanged: the observable
`min`, `max` and `avg` still describe the last completed batch. -/
theorem C2_report_stable_between_closes (C : NumElem α)
    (s : AggregateMetric α) (vs : List α)
    (h0 : s.count = 0) (hlen : vs.length < s.threshold) :
    (addAll C s vs).values = s.values
    ∧ (addAll C s vs).average = s.average := by
  rw [addAll_no_close C vs s (by omega)]
  exact ⟨rfl, rfl⟩

/-- Witness for C2: a post-close state of threshold 3 reporting
(min 2, avg 5, max 8); two further adds change nothing observable. -/
theorem C2_report_stable_between_closes_witness :
    (addAll i32Elem ⟨0, 0, 8, 2, 3, -(2 ^ 31), 2 ^ 31 - 1, 5, true, ""⟩
        [100, 200]).values = some ⟨2, 5, 8, ""⟩
    ∧ (addAll i32Elem ⟨0, 0, 8, 2, 3, -(2 ^ 31), 2 ^ 31 - 1, 5, true, ""⟩
        [100, 200]).average = some 5 := by
  have h := C2_report_stable_between_closes i32Elem
    ⟨0, 0, 8, 2, 3, -(2 ^ 31), 2 ^ 31 - 1, 5, true, ""⟩ [100, 200]
    rfl (by norm_num)
  rw [h.1, h.2]
  exact ⟨rfl, rfl⟩

/-- C7: at a batch close, when `sum.to_f32()` fails (the sum is not
representable as an `f32`), the mean is computed from `0.0` in place of
the sum, so the published `avg` is `0`; when it succeeds with value `q`
the published `avg` is `q / (count as f32)`. -/
theorem C7_unrepresentable_sum_reports_zero (C : NumElem α)
    (s : AggregateMetric α) (v : α) (hclose : s.threshold ≤ s.count + 1) :
    (C.to_f32 (C.add s.sum v) = none →
      (AggregateMetric.add C s v).avg = 0)
    ∧ (∀ q : ℚ, C.to_f32 (C.add s.sum v) = some q →
        (AggregateMetric.add C s v).avg = q / ((s.count + 1 : ℕ) : ℚ)) := by
  rw [AggregateMetric.add_of_close C s v hclose]
  constructor
  · intro hnone
    show (C.to_f32 (C.add s.sum v)).getD 0 / ((s.count + 1 : ℕ) : ℚ) = 0
    rw [hnone]
    simp
  · intro q hq
    show (C.to_f32 (C.add s.sum v)).getD 0 / ((s.count + 1 : ℕ) : ℚ) = _
    rw [hq]
    rfl

/-- Witness for C7 at element type `f64` (threshold 1): adding
`2 * f32::MAX`, which `to_f32` cannot represent, publishes avg `0`. -/
theorem C7_unrepresentable_sum_reports_zero_witness :
    (AggregateMetric.add f64Elem
      ⟨0, 0, 0, 0, 1, -f64MaxAbs, f64MaxAbs, 0, false, ""⟩
      (2 * f32MaxAbs)).avg = 0 := by
  have hn : f64Elem.to_f32 (f64Elem.add 0 (2 * f32MaxAbs)) = none := by
    show (if |(0 : ℚ) + 2 * f32MaxAbs| ≤ f32MaxAbs then _ else none) = none
    rw [if_neg]
    rw [zero_add, abs_of_nonneg (by norm_num [f32MaxAbs])]
    intro hle
    have : (0 : ℚ) < f32MaxAbs := by norm_num [f32MaxAbs]
    linarith
  exact (C7_unrepresentable_sum_reports_zero f64Elem
    ⟨0, 0, 0, 0, 1, -f64MaxAbs, f64MaxAbs, 0, false, ""⟩
    (2 * f32MaxAbs) (by norm_num)).1 hn

/-- C8: `threshold > 0` after successful construction and is preserved
by the operations; immediately after every `add` the batch counter
satisfies `count < threshold`; and under the invariant
`count < threshold ≤ 255` the `u8` increment `count + 1` stays within
`u8` range, so it never overflows. -/
theorem C8_threshold_count_invariant (C : NumElem α) (k : ℕ)
    (s : AggregateMetric α) (v : α) (u : String) :
    (∀ t, AggregateMetric.new C k = .ok t → 0 < t.threshold)
    ∧ (AggregateMetric.add C s v).threshold = s.threshold
    ∧ (s.with_unit u).threshold = s.threshold
    ∧ (0 < s.threshold → (AggregateMetric.add C s v).count < s.threshold)
    ∧ (s.count < s.threshold → s.threshold ≤ 255 → s.count + 1 ≤ 255) := by
  refine ⟨?_, ?_, rfl, ?_, fun h1 h2 => by omega⟩
  · intro t ht
    unfold AggregateMetric.new at ht
    by_cases hk : k = 0
    · rw [if_pos hk] at ht
      exact Except.noConfusion ht
    · rw [if_neg hk] at ht
      cases ht
      show 0 < k
      omega
  · by_cases h : s.threshold ≤ s.count + 1
    · rw [AggregateMetric.add_of_close C s v h]
    · rw [AggregateMetric.add_of_lt C s v (by omega)]
  · intro hpos
    by_cases h : s.threshold ≤ s.count + 1
    · rw [AggregateMetric.add_of_close C s v h]
      exact hpos
    · rw [AggregateMetric.add_of_lt C s v (by omega)]
      show s.count + 1 < s.threshold
      omega

/-- Witness for C8: a mid-batch add at threshold 3 keeps
`count < threshold`. -/
theorem C8_threshold_count_invariant_witness :
    (AggregateMetric.add i32Elem
      ⟨0, 0, 0, 0, 3, -(2 ^ 31), 2 ^ 31 - 1, 0, false, ""⟩ 7).count < 3 :=
  (C8_threshold_count_invariant i32Elem 3
    ⟨0, 0, 0, 0, 3, -(2 ^ 31), 2 ^ 31 - 1, 0, false, ""⟩ 7
    "").2.2.2.1 (by norm_num)

/-- C9: `avg_is_set` (the `has_report` flag) is monotone: false at
construction, preserved by `add`, untouched by `with_unit`, set at
every batch close; once it is true, `average()` and `values()` return
a present value after any further sequence of `add` calls. -/
theorem C9_has_report_monotone (C : NumElem α) (k : ℕ)
    (s : AggregateMetric α) (v : α) (u : String) (vs : List α) :
    (∀ t, AggregateMetric.new C k = .ok t → t.avg_is_set = false)
    ∧ (s.avg_is_set = true → (AggregateMetric.add C s v).avg_is_set = true)
    ∧ (s.with_unit u).avg_is_set = s.avg_is_set
    ∧ (s.threshold ≤ s.count + 1 →
        (AggregateMetric.add C s v).avg_is_set = true)
    ∧ (s.avg_is_set = true →
        ((addAll C s vs).average).isSome = true
        ∧ ((addAll C s vs).values).isSome = true) := by
  refine ⟨?_, ?_, rfl, ?_, ?_⟩
  · intro t ht
    unfold AggregateMetric.new at ht
    by_cases hk : k = 0
    · rw [if_pos hk] at ht
      exact Except.noConfusion ht
    · rw [if_neg hk] at ht
      cases ht
      rfl
  · intro h
    by_cases hc : s.threshold ≤ s.count + 1
    · rw [AggregateMetric.add_of_close C s v hc]
    · rw [AggregateMetric.add_of_lt C s v (by omega)]
      exact h
  · intro hc
    rw [AggregateMetric.add_of_close C s v hc]
  · intro h
    have hset := avg_is_set_addAll C vs s h
    constructor
    · unfold AggregateMetric.average
      rw [if_pos hset]
      rfl
    · unfold AggregateMetric.values
      rw [if_pos hset]
      rfl

/-- Witness for C9: from a reporting state, four more adds (threshold
3, so spanning another close) still leave `values()` present. -/
theorem C9_has_report_monotone_witness :
    ((addAll i32Elem ⟨0, 0, 8, 2, 3, -(2 ^ 31), 2 ^ 31 - 1, 5, true, ""⟩
      [1, 2, 3, 4]).values).isSome = true :=
  ((C9_has_report_monotone i32Elem 3
    ⟨0, 0, 8, 2, 3, -(2 ^ 31), 2 ^ 31 - 1, 5, true, ""⟩ 0 ""
    [1, 2, 3, 4]).2.2.2.2 rfl).2

/-- C10: `with_unit` modifies only the `unit` field: every other field
is unchanged, `average()` is unchanged, `add` commutes with it (so all
accumulation is as without the call), any later report equals the
report without the call except that it carries exactly `u` as its
unit, and this persists across any sequence of adds. -/
theorem C10_with_unit_frame (C : NumElem α) (s : AggregateMetric α)
    (u : String) (v : α) (vs : List α) :
    (s.with_unit u).sum = s.sum
    ∧ (s.with_unit u).count = s.count
    ∧ (s.with_unit u).min = s.min
    ∧ (s.with_unit u).max = s.max
    ∧ (s.with_unit u).threshold = s.threshold
    ∧ (s.with_unit u).min_ack = s.min_ack
    ∧ (s.with_unit u).max_ack = s.max_ack
    ∧ (s.with_unit u).avg = s.avg
    ∧ (s.with_unit u).avg_is_set = s.avg_is_set
    ∧ (s.with_unit u).unit = u
    ∧ (s.with_unit u).average = s.average
    ∧ AggregateMetric.add C (s.with_unit u) v
        = (AggregateMetric.add C s v).with_unit u
    ∧ addAll C (s.with_unit u) vs = (addAll C s vs).with_unit u
    ∧ (s.with_unit u).values
        = Option.map (fun r => r.with_unit u) s.values := by
  refine ⟨rfl, rfl, rfl, rfl, rfl, rfl, rfl, rfl, rfl, rfl, rfl,
    add_with_unit C s u v, addAll_with_unit C vs s u, ?_⟩
  have hwu : (s.with_unit u).avg_is_set = s.avg_is_set := rfl
  cases hb : s.avg_is_set with
  | false =>
      simp [AggregateMetric.values, AggregateMetric.with_unit, hb]
  | true =>
      simp [AggregateMetric.values, AggregateMetric.with_unit, hb,
        MinMaxAvg.new, MinMaxAvg.with_unit]

/-- C1 counterexample: the claim fails on the code at an overflowing
batch.  On a freshly constructed `i32` meter of threshold 2, the adds
`[2^31 - 1, 2^31 - 1]` (both in `i32` range) wrap the running sum to
`-2`, so the program publishes avg `-1`, while the claim demands
`(v₁ + v₂) / 2 = 2147483647`. -/
theorem C1_overflow_counterexample :
    AggregateMetric.new i32Elem 2 = .ok
      { sum := 0, count := 0, max := 0, min := 0, threshold := 2,
        max_ack := -(2 ^ 31), min_ack := 2 ^ 31 - 1, avg := 0,
        avg_is_set := false, unit := "" }
    ∧ (addAll i32Elem
        { sum := 0, count := 0, max := 0, min := 0, threshold := 2,
          max_ack := -(2 ^ 31), min_ack := 2 ^ 31 - 1, avg := 0,
          avg_is_set := false, unit := "" }
        [2 ^ 31 - 1, 2 ^ 31 - 1]).average = some (-1)
    ∧ ((([2 ^ 31 - 1, 2 ^ 31 - 1] : List ℤ).sum : ℚ) / (2 : ℚ) ≠ -1) := by
  refine ⟨rfl, ?_, by norm_num⟩
  norm_num [addAll, List.foldl, AggregateMetric.add, AggregateMetric.average,
    i32Elem, wrap32]

/-- C1 (amended): for every threshold `k` in 1..=255 and every
sequence of `k` `add` calls on a freshly constructed meter whose
running sums `v₁ + ... + vₘ` (`m ≤ k`) all stay within `i32` range
(numeric overflow is an unchecked caller contract, spec §7): after
each proper prefix both `average()` and `values()` are absent;
immediately after the `k`-th add, `values()` reports the minimum, the
maximum, and the mean `(v₁ + ... + vₖ) / k` of the batch, and
`average()` returns that same mean.  Stated at element type `i32`
(values in `i32` range). -/
theorem C1_first_batch_report (k : ℕ) (vs : List ℤ)
    (s0 : AggregateMetric ℤ)
    (hk1 : 1 ≤ k) (hk2 : k ≤ 255) (hlen : vs.length = k)
    (hrange : ∀ v ∈ vs, -(2 ^ 31) ≤ v ∧ v ≤ 2 ^ 31 - 1)
    (hsums : ∀ m, m ≤ vs.length →
      -(2 ^ 31) ≤ (vs.take m).sum ∧ (vs.take m).sum ≤ 2 ^ 31 - 1)
    (hs0 : AggregateMetric.new i32Elem k = .ok s0) :
    (∀ m, m < k →
      (addAll i32Elem s0 (vs.take m)).average = none
      ∧ (addAll i32Elem s0 (vs.take m)).values = none)
    ∧ (∃ mn mx : ℤ,
        mn ∈ vs ∧ (∀ v ∈ vs, mn ≤ v)
        ∧ mx ∈ vs ∧ (∀ v ∈ vs, v ≤ mx)
        ∧ (addAll i32Elem s0 vs).values =
            some ⟨mn, ((vs.sum : ℤ) : ℚ) / (k : ℚ), mx, ""⟩
        ∧ (addAll i32Elem s0 vs).average =
            some (((vs.sum : ℤ) : ℚ) / (k : ℚ))) := by
  rw [AggregateMetric.new_ok i32Elem k (by omega)] at hs0
  cases hs0
  have hne : vs ≠ [] := by
    intro hnil
    rw [hnil] at hlen
    simp at hlen
    omega
  constructor
  · intro m hm
    rw [addAll_no_close i32Elem (vs.take m) _
      (by show 0 + (vs.take m).length < k
          rw [List.length_take]
          omega)]
    exact ⟨rfl, rfl⟩
  · have hmin : vs.foldl
        (fun acc v => if i32Elem.ltb v acc then v else acc)
        (2 ^ 31 - 1) = vs.foldl min (2 ^ 31 - 1) :=
      i32_fold_min vs (2 ^ 31 - 1)
    have hmax : vs.foldl
        (fun acc v => if i32Elem.gtb v acc then v else acc)
        (-(2 ^ 31)) = vs.foldl max (-(2 ^ 31)) :=
      i32_fold_max vs (-(2 ^ 31))
    have hsum : vs.foldl i32Elem.add (0 : ℤ) = vs.sum := by
      rw [foldl_wrap_add vs 0 (by intro m hm; simpa using hsums m hm),
        zero_add]
    have hrw := addAll_close i32Elem vs
      { sum := i32Elem.default, count := 0, max := i32Elem.default,
        min := i32Elem.default, threshold := k,
        max_ack := i32Elem.min_value, min_ack := i32Elem.max_value,
        avg := 0, avg_is_set := false, unit := "" } hne
      (by show 0 + vs.length = k; omega)
    refine ⟨vs.foldl min (2 ^ 31 - 1), vs.foldl max (-(2 ^ 31)),
      ?_, ?_, ?_, ?_, ?_, ?_⟩
    · rcases foldl_min_mem_or_start vs (2 ^ 31 - 1) with h | h
      · exact h
      · obtain ⟨v0, hv0⟩ := List.exists_mem_of_ne_nil vs hne
        have h1 := foldl_min_le_mem vs (2 ^ 31 - 1) v0 hv0
        have h2 := (hrange v0 hv0).2
        have h3 : vs.foldl min (2 ^ 31 - 1) = v0 := by omega
        rw [h3]
        exact hv0
    · intro v hv
      exact foldl_min_le_mem vs (2 ^ 31 - 1) v hv
    · rcases foldl_max_mem_or_start vs (-(2 ^ 31)) with h | h
      · exact h
      · obtain ⟨v0, hv0⟩ := List.exists_mem_of_ne_nil vs hne
        have h1 := foldl_max_ge_mem vs (-(2 ^ 31)) v0 hv0
        have h2 := (hrange v0 hv0).1
        have h3 : vs.foldl max (-(2 ^ 31)) = v0 := by omega
        rw [h3]
        exact hv0
    · intro v hv
      exact foldl_max_ge_mem vs (-(2 ^ 31)) v hv
    · rw [hrw]
      show some _ = some _
      rw [MinMaxAvg.new, MinMaxAvg.with_unit]
      refine congrArg some ?_
      refine MinMaxAvg.mk.injEq .. |>.mpr ?_
      refine ⟨hmin, ?_, hmax, rfl⟩
      show (i32Elem.to_f32 (vs.foldl i32Elem.add 0)).getD 0 / (k : ℚ) = _
      rw [hsum]
      show (some ((vs.sum : ℤ) : ℚ)).getD 0 / (k : ℚ) = _
      rw [Option.getD_some]
    · rw [hrw]
      show some _ = some _
      refine congrArg some ?_
      show (i32Elem.to_f32 (vs.foldl i32Elem.add 0)).getD 0 / (k : ℚ) = _
      rw [hsum]
      show (some ((vs.sum : ℤ) : ℚ)).getD 0 / (k : ℚ) = _
      rw [Option.getD_some]

/-- Witness for the amended C1 at the repository's `min_max_values`
test: threshold 3 with adds 5, 2, 8 (all running sums in range) gives
report (min 2, avg 5, max 8). -/
theorem C1_first_batch_report_witness :
    (∀ m, m < 3 →
      (addAll i32Elem
        { sum := 0, count := 0, max := 0, min := 0, threshold := 3,
          max_ack := -(2 ^ 31), min_ack := 2 ^ 31 - 1, avg := 0,
          avg_is_set := false, unit := "" }
        (([5, 2, 8] : List ℤ).take m)).average = none
      ∧ (addAll i32Elem
        { sum := 0, count := 0, max := 0, min := 0, threshold := 3,
          max_ack := -(2 ^ 31), min_ack := 2 ^ 31 - 1, avg := 0,
          avg_is_set := false, unit := "" }
        (([5, 2, 8] : List ℤ).take m)).values = none)
    ∧ (∃ mn mx : ℤ,
        mn ∈ ([5, 2, 8] : List ℤ) ∧ (∀ v ∈ ([5, 2, 8] : List ℤ), mn ≤ v)
        ∧ mx ∈ ([5, 2, 8] : List ℤ) ∧ (∀ v ∈ ([5, 2, 8] : List ℤ), v ≤ mx)
        ∧ (addAll i32Elem
            { sum := 0, count := 0, max := 0, min := 0, threshold := 3,
              max_ack := -(2 ^ 31), min_ack := 2 ^ 31 - 1, avg := 0,
              avg_is_set := false, unit := "" }
            ([5, 2, 8] : List ℤ)).values =
            some ⟨mn, ((([5, 2, 8] : List ℤ).sum : ℤ) : ℚ) / (3 : ℚ), mx, ""⟩
        ∧ (addAll i32Elem
            { sum := 0, count := 0, max := 0, min := 0, threshold := 3,
              max_ack := -(2 ^ 31), min_ack := 2 ^ 31 - 1, avg := 0,
              avg_is_set := false, unit := "" }
            ([5, 2, 8] : List ℤ)).average =
            some (((([5, 2, 8] : List ℤ).sum : ℤ) : ℚ) / (3 : ℚ))) :=
  C1_first_batch_report 3 [5, 2, 8] _ (by norm_num) (by norm_num) rfl
    (by decide) (by decide) rfl

end Metricator
